import Mathlib

/-!
# Front Matter Timestamps — verification of the header-merge engine and session tracker

This file gives a shallow embedding of the "obsidian-front-matter-timestamps"
plugin sources and proves/refutes the frozen claims about them.

Strings are modelled as `List Char` (`Str`).  The JavaScript operations the
source relies on are embedded faithfully:

* `String.prototype.match` / `String.prototype.replace` with the regex
  `^---\n([\s\S]*?)\n---` (enclosed in regex slashes) — modelled by `headerMatch` (leftmost-shortest
  body, anchored at position 0) together with `jsSubst`, the ECMAScript
  `GetSubstitution` algorithm for `$`-patterns in string replacements;
* `String.prototype.includes("modified:")` — modelled by `hasSub`;
* the regex replace `.replace(/modified: .*/, ...)` (first match only, `.`
  excluding line terminators) — modelled by `replaceModifiedLine`;
* `filePath.split("/")` / `Array.prototype.join("/")` — `splitSlash` /
  `joinSlash`;
* `moment(mtime).diff(moment(ctime), "seconds")` — truncating integer
  division (`Int.tdiv`), per moment's documented truncation toward zero.
-/

abbrev Str := List Char

/-- Convert a Lean string literal to the `List Char` representation. -/
def strOf (s : String) : Str := s.toList

/-- Boolean "the first list starts with the second" (JS `startsWith`-style
prefix test, used to implement substring search). -/
def leadsWith : Str → Str → Bool
  | [], _ => true
  | _ :: _, [] => false
  | a :: pats, b :: rest => a == b && leadsWith pats rest

/-- Index of the first occurrence of `pat` in `s` (JS `String.indexOf`,
`none` when absent; the empty pattern occurs at 0). -/
def findIdx (pat : Str) : Str → Option Nat
  | [] => if leadsWith pat [] then some 0 else none
  | c :: rest =>
    if leadsWith pat (c :: rest) then some 0
    else (findIdx pat rest).map (· + 1)

/-- JS `String.prototype.includes`. -/
def hasSub (pat s : Str) : Bool := (findIdx pat s).isSome

/-- JS regex line terminators (the characters `.` does not match):
LF, CR, LINE SEPARATOR, PARAGRAPH SEPARATOR. -/
def isLineTerm (c : Char) : Bool :=
  c == '\n' || c == '\r' || c.toNat == 0x2028 || c.toNat == 0x2029

/-- The part of `s` matched by a greedy `.*` starting at its head. -/
def takeLine (s : Str) : Str := s.takeWhile (fun c => !isLineTerm c)

/-- The part of `s` left after a greedy `.*` starting at its head. -/
def dropLine (s : Str) : Str := s.dropWhile (fun c => !isLineTerm c)

/-- Digit value of a decimal digit character. -/
def digitVal (c : Char) : Nat := c.toNat - 48

/-- Capture group `n` (1-based) of a capture list, empty for `undefined`. -/
def capAt (caps : List Str) (n : Nat) : Str := (caps.get? (n - 1)).getD []

/-- ECMAScript `GetSubstitution`: expand `$`-patterns in the replacement
string `r` of `String.prototype.replace`.  `m` is the matched text, `b` the
part of the subject before the match, `a` the part after it, `caps` the
capture groups.  `$$`, `$&`, `` $` ``, `$'`, `$n`, `$nn` are interpreted;
any other `$` is literal. -/
def jsSubst (m b a : Str) (caps : List Str) : Str → Str
  | [] => []
  | [c] => [c]
  | c :: d :: r =>
    if c ≠ '$' then c :: jsSubst m b a caps (d :: r)
    else if d = '$' then '$' :: jsSubst m b a caps r
    else if d = '&' then m ++ jsSubst m b a caps r
    else if d = Char.ofNat 96 then b ++ jsSubst m b a caps r
    else if d = '\'' then a ++ jsSubst m b a caps r
    else if d.isDigit then
      match r with
      | e :: r2 =>
        if e.isDigit && decide (1 ≤ digitVal d * 10 + digitVal e)
            && decide (digitVal d * 10 + digitVal e ≤ caps.length) then
          capAt caps (digitVal d * 10 + digitVal e) ++ jsSubst m b a caps r2
        else if 1 ≤ digitVal d && digitVal d ≤ caps.length then
          capAt caps (digitVal d) ++ jsSubst m b a caps (e :: r2)
        else '$' :: jsSubst m b a caps (d :: e :: r2)
      | [] =>
        if 1 ≤ digitVal d && digitVal d ≤ caps.length then capAt caps (digitVal d)
        else ['$', d]
    else '$' :: jsSubst m b a caps (d :: r)

/-- The match of `^---\n([\s\S]*?)\n---` (enclosed in regex slashes) against `content`
(src/main.ts line 66, `yamlRegex`): `some (body, suffix)` where `body` is
capture group 1 and `suffix` the text after the whole match.  `^` is
anchored at position 0 and the lazy body ends at the first later
occurrence of `"\n---"`. -/
def headerMatch (content : Str) : Option (Str × Str) :=
  if leadsWith (strOf "---\n") content then
    let r := content.drop 4
    match findIdx (strOf "\n---") r with
    | some k => some (r.take k, r.drop (k + 4))
    | none => none
  else none

/-- `yamlContent.replace(/modified: .*/, "modified: " ++ T)`
(src/main.ts lines 85–88): replace the first occurrence of the pattern —
the first occurrence of the literal `"modified: "` together with the rest
of that line — by `"modified: " ++ T`, with `GetSubstitution` expansion of
the replacement. -/
def replaceModifiedLine (body T : Str) : Str :=
  match findIdx (strOf "modified: ") body with
  | none => body
  | some i =>
    let pre := body.take i
    let restAll := body.drop (i + 10)
    let lineRest := takeLine restAll
    let post := restAll.drop lineRest.length
    pre ++ jsSubst (strOf "modified: " ++ lineRest) pre post [] (strOf "modified: " ++ T) ++ post

/-- The text-level merge algorithm of `UpdateModifiedTimePlugin.updateModifiedTime`
(src/main.ts lines 66–111, identically src/unnamed/part_001 lines 61–97),
as a pure function of the current-time string `T` and the file content.
`none` means the function returned without writing (no YAML front matter);
`some out` means the file was rewritten with content `out`.

The source: match `yamlRegex`; if no match, return.  If the captured body
`includes("modified:")`, replace `/modified: .*/` in the body, else append
`"\nmodified: " ++ T` to the body.  Finally substitute
`` `---\n${newYamlContent}\n---` `` for the regex match in the whole
content — a string replacement, hence subject to `GetSubstitution`
`$`-expansion with capture group 1 = the original body. -/
def updateModifiedTime (T content : Str) : Option Str :=
  match headerMatch content with
  | none => none
  | some (body, suffix) =>
    let newBody :=
      if hasSub (strOf "modified:") body then replaceModifiedLine body T
      else body ++ strOf "\nmodified: " ++ T
    let matched := strOf "---\n" ++ body ++ strOf "\n---"
    let repl := strOf "---\n" ++ newBody ++ strOf "\n---"
    some (jsSubst matched [] suffix [body] repl ++ suffix)

example :
    updateModifiedTime (strOf "2024-06-01T00:00:00Z")
      (strOf "---\ncreated: 2024-01-01T00:00:00Z\n---\nbody") =
    some (strOf "---\ncreated: 2024-01-01T00:00:00Z\nmodified: 2024-06-01T00:00:00Z\n---\nbody") := by
  decide

example :
    updateModifiedTime (strOf "2024-07-01T00:00:00Z")
      (strOf "---\ncreated: 2024-01-01T00:00:00Z\nmodified: 2024-06-01T00:00:00Z\n---\nbody") =
    some (strOf "---\ncreated: 2024-01-01T00:00:00Z\nmodified: 2024-07-01T00:00:00Z\n---\nbody") := by
  decide

example : updateModifiedTime (strOf "9") (strOf "no front matter here") = none := by
  decide

/-! ## Path exclusion (src/main.ts lines 478–492, `isPathExcluded`) -/

/-- JS `filePath.split("/")`. -/
def splitSlash : Str → List Str
  | [] => [[]]
  | c :: t =>
    if c = '/' then [] :: splitSlash t
    else
      match splitSlash t with
      | h :: r => (c :: h) :: r
      | [] => [[c]]

/-- JS `segments.join("/")`. -/
def joinSlash (segs : List Str) : Str := List.intercalate ['/'] segs

/-- `pathSegments.map((_, index) => pathSegments.slice(0, index + 1).join("/"))`:
all prefixes of the slash-separated path, re-joined from the root. -/
def fullPathChecks (segs : List Str) : List Str :=
  (List.range segs.length).map (fun i => joinSlash (segs.take (i + 1)))

/-- `FrontMatterTimestampsPlugin.isPathExcluded` (src/main.ts lines 478–492):
immediately `false` on an empty excluded-folder list, else `true` iff some
configured excluded path equals one of the joined path prefixes. -/
def isPathExcluded (excludedFolders : List Str) (filePath : Str) : Bool :=
  if excludedFolders.length = 0 then false
  else excludedFolders.any (fun e => (fullPathChecks (splitSlash filePath)).any (fun q => q == e))

/-- The exclusion policy in the spec's words (§4.2 tie-break policy): a
document is excluded iff some prefix of its slash-separated path,
reconstructed by joining segments from the root, exactly equals a
configured excluded path string. -/
def specExcluded (excludedFolders : List Str) (filePath : Str) : Prop :=
  ∃ k, 1 ≤ k ∧ k ≤ (splitSlash filePath).length ∧
    joinSlash ((splitSlash filePath).take k) ∈ excludedFolders

/-! ## New-file classification and emptiness (src/main.ts lines 570–581) -/

/-- `moment(mtime).diff(moment(ctime), "seconds")`: the difference in
milliseconds divided by 1000 and truncated toward zero (moment truncates;
`Int.tdiv` is truncating division). -/
def momentDiffSeconds (ctime mtime : Int) : Int := Int.tdiv (mtime - ctime) 1000

/-- `timeDifference <= newFileTolerance` with `newFileTolerance = 0.3`
(src/main.ts lines 571–575).  `timeDifference` is an integer, so the
comparison against 0.3 is rendered exactly by `10 * timeDifference ≤ 3`. -/
def isFileNew (ctime mtime : Int) : Bool :=
  decide (10 * momentDiffSeconds ctime mtime ≤ 3)

/-- Core JS whitespace characters (the set `String.prototype.trim` strips);
enough of the set for the contents this development evaluates. -/
def jsWhitespace (c : Char) : Bool :=
  c == ' ' || c == '\t' || c == '\n' || c == '\r' ||
  c.toNat == 11 || c.toNat == 12 || c.toNat == 0xa0 || c.toNat == 0xfeff ||
  c.toNat == 0x2028 || c.toNat == 0x2029

/-! ## Session tracker (src/main.ts lines 474–726, third design generation) -/

/-- The slice of `TFile` the handlers consult: path, extension, the
filesystem stat (`ctime`/`mtime` in milliseconds, `size` in bytes). -/
structure FileInfo where
  path : Str
  ext : Str
  ctime : Int
  mtime : Int
  size : Nat
deriving DecidableEq

/-- The plugin settings record (src/main.ts lines 439–461). -/
structure Settings where
  autoUpdate : Bool
  autoAddTimestamps : Bool
  createdPropertyName : Str
  modifiedPropertyName : Str
  allowNonEmptyNewFile : Bool
  delayAddingTimestamps : Int
  excludedFolders : List Str
  customCommand : Str
  debug : Bool

/-- `DEFAULT_SETTINGS` (src/main.ts lines 451–461). -/
def defaultSettings : Settings where
  autoUpdate := true
  autoAddTimestamps := true
  createdPropertyName := strOf "created"
  modifiedPropertyName := strOf "modified"
  allowNonEmptyNewFile := false
  delayAddingTimestamps := 1000
  excludedFolders := []
  customCommand := strOf ""
  debug := false

/-- The single-slot tracker state: `lastActiveFile` and `lastChecksum`
(src/main.ts lines 476–477). -/
structure TrackerState where
  lastActiveFile : Option FileInfo
  lastChecksum : Option Str
deriving DecidableEq

/-- The vault as the handlers see it during one invocation: existence by
path, full content by path, and the digest function.  `calculateChecksum`
(src/main.ts lines 463–472) is `hash ∘ readFile`; the digest function is a
parameter of the model (the source uses SHA-256 rendered as lowercase
hex — only determinism and comparison of digests matter here). -/
structure Env where
  fsExists : Str → Bool
  readFile : Str → Str
  hash : Str → Str

/-- `calculateChecksum(file, vault)` for the file at `p`. -/
def calculateChecksum (env : Env) (p : Str) : Str := env.hash (env.readFile p)

/-- The observable calls a handler makes: `stamp p` is an invocation of
`updateModifiedTime` on the file at `p`, `create p` an invocation of
`handleFileCreate` on the file at `p`. -/
inductive Act where
  | stamp (p : Str)
  | create (p : Str)
deriving DecidableEq

/-- `FrontMatterTimestampsPlugin.handleFileChange` (src/main.ts lines
526–626), as a step function: given the settings, the vault, the currently
active markdown file (`none` when no markdown view is active) and the
tracker state, produce the new tracker state and the list of emitted
calls, in program order.  Reads are assumed to succeed (the `catch`
branches only log). -/
def handleFileChange (s : Settings) (env : Env) (current : Option FileInfo)
    (st : TrackerState) : TrackerState × List Act :=
  match current with
  | none =>
    let acts :=
      match st.lastActiveFile with
      | some last =>
        if !isPathExcluded s.excludedFolders last.path then
          if env.fsExists last.path then
            if st.lastChecksum ≠ some (calculateChecksum env last.path) then
              [Act.stamp last.path]
            else []
          else []
        else []
      | none => []
    (⟨none, none⟩, acts)
  | some cur =>
    if isPathExcluded s.excludedFolders cur.path then (st, [])
    else
      let fileNew := isFileNew cur.ctime cur.mtime
      let fileEmpty :=
        if s.allowNonEmptyNewFile then true
        else cur.size == 0 || (env.readFile cur.path).all jsWhitespace
      let acts1 :=
        if fileNew && fileEmpty && s.autoAddTimestamps then [Act.create cur.path] else []
      let acts2 :=
        match st.lastActiveFile with
        | some last =>
          if last.path ≠ cur.path then
            if env.fsExists last.path then
              if st.lastChecksum ≠ some (calculateChecksum env last.path) then
                [Act.stamp last.path]
              else []
            else []
          else []
        | none => []
      let st' :=
        match st.lastActiveFile with
        | none => ⟨some cur, some (calculateChecksum env cur.path)⟩
        | some last =>
          if last.path ≠ cur.path then ⟨some cur, some (calculateChecksum env cur.path)⟩
          else st
      (st', acts1 ++ acts2)

/-- `FrontMatterTimestampsPlugin.handleFileChange` of the second design
generation (src/main.ts lines 257–286): unconditional stale-check on the
previous file (guarded by `lastActiveFile && lastActiveFile.path`), then
unconditional re-tracking of the current file; `lastChecksum` is set only
when `currentFile && currentFile.path` is truthy (nonempty path). -/
def handleFileChangeV2 (env : Env) (current : Option FileInfo)
    (st : TrackerState) : TrackerState × List Act :=
  let acts :=
    match st.lastActiveFile with
    | some last =>
      if last.path ≠ [] then
        if st.lastChecksum ≠ some (calculateChecksum env last.path) then
          [Act.stamp last.path]
        else []
      else []
    | none => []
  let chk :=
    match current with
    | some cur => if cur.path ≠ [] then some (calculateChecksum env cur.path) else none
    | none => none
  (⟨current, chk⟩, acts)

/-- Fold `handleFileChange` over a serially delivered list of
`active-leaf-change` observations. -/
def runHandler (s : Settings) (env : Env) : TrackerState → List (Option FileInfo) → TrackerState
  | st, [] => st
  | st, e :: evs => runHandler s env (handleFileChange s env e st).1 evs

/-- Fold `handleFileChangeV2` over a list of observations. -/
def runHandlerV2 (env : Env) : TrackerState → List (Option FileInfo) → TrackerState
  | st, [] => st
  | st, e :: evs => runHandlerV2 env (handleFileChangeV2 env e st).1 evs

/-- Count of `updateModifiedTime` invocations on the file at `p` among the
emitted calls. -/
def stampsOn (p : Str) (acts : List Act) : Nat :=
  acts.countP (fun a => a == Act.stamp p)

/-! ## Front-matter mutation on file creation -/

/-- A parsed front-matter view: ordered key–value pairs (values modelled
as strings). -/
abbrev FM := List (Str × Str)

/-- Property read `frontmatter[k]` (first binding of the key; a JS object
has at most one binding per key). -/
def fmGet : FM → Str → Option Str
  | [], _ => none
  | kv :: rest, k => if kv.1 == k then some kv.2 else fmGet rest k

/-- Property write `frontmatter[k] = v`: overwrite in place when the key
exists (keeping its position), else append at the end — JS object
property-set semantics. -/
def fmSet : FM → Str → Str → FM
  | [], k, v => [(k, v)]
  | kv :: rest, k, v => if kv.1 == k then (k, v) :: rest else kv :: fmSet rest k v

/-- The mutation `handleFileCreate` applies to the front matter in the
third design generation (src/main.ts lines 640–648): set the configured
created property, then the configured modified property, both to the
current time — unconditionally. -/
def createMut (created modified t : Str) (fm : FM) : FM :=
  fmSet (fmSet fm created t) modified t

/-- The mutation of the second design generation (src/main.ts lines
296–304): set `created` only when `frontmatter.created` is falsy (absent
or empty), then set `modified` unconditionally. -/
def createMutV2 (t : Str) (fm : FM) : FM :=
  let fm1 :=
    match fmGet fm (strOf "created") with
    | some v => if v = [] then fmSet fm (strOf "created") t else fm
    | none => fmSet fm (strOf "created") t
  fmSet fm1 (strOf "modified") t

/-- `FrontMatterTimestampsPlugin.handleFileCreate` (src/main.ts lines
628–659): skip non-markdown files; record the current time; wait the
configured delay; then run `processFrontMatter` with `createMut`.
`existsAfterDelay` is whether the file still exists when the delay ends:
if it was deleted during the wait, `processFrontMatter` throws and the
`catch` turns the stamp attempt into a no-op (`none` = no write). -/
def handleFileCreate (s : Settings) (existsAfterDelay : Bool) (file : FileInfo)
    (t : Str) (fm : FM) : Option FM :=
  if file.ext ≠ strOf "md" then none
  else if existsAfterDelay then
    some (createMut s.createdPropertyName s.modifiedPropertyName t fm)
  else none

/-! ## Lemmas about the string machinery -/

/-- `pat` occurs in `s` at index `i`. -/
def occursAt (pat s : Str) (i : Nat) : Prop := ∃ t, s.drop i = pat ++ t

theorem leadsWith_iff {pat : Str} : ∀ {s : Str}, leadsWith pat s = true ↔ ∃ t, s = pat ++ t := by
  induction pat with
  | nil => intro s; simp [leadsWith]
  | cons a pats ih =>
    intro s
    cases s with
    | nil => simp [leadsWith]
    | cons b rest =>
      simp only [leadsWith, Bool.and_eq_true, beq_iff_eq, List.cons_append]
      constructor
      · rintro ⟨rfl, h⟩
        obtain ⟨t, rfl⟩ := ih.mp h
        exact ⟨t, rfl⟩
      · rintro ⟨t, ht⟩
        injection ht with h1 h2
        exact ⟨h1.symm, ih.mpr ⟨t, h2⟩⟩

theorem findIdx_occurs {pat : Str} : ∀ {s : Str} {i : Nat},
    findIdx pat s = some i → occursAt pat s i := by
  intro s
  induction s with
  | nil =>
    intro i h
    rw [findIdx] at h
    split at h
    · cases h
      obtain ⟨t, ht⟩ := leadsWith_iff.mp ‹_›
      exact ⟨t, by simpa using ht⟩
    · cases h
  | cons c rest ih =>
    intro i h
    rw [findIdx] at h
    split at h
    · cases h
      obtain ⟨t, ht⟩ := leadsWith_iff.mp ‹_›
      exact ⟨t, by simpa using ht⟩
    · cases hf : findIdx pat rest with
      | none => rw [hf] at h; cases h
      | some j =>
        rw [hf] at h
        simp only [Option.map_some', Option.some.injEq] at h
        subst h
        obtain ⟨t, ht⟩ := ih hf
        exact ⟨t, by simpa [List.drop_succ_cons] using ht⟩

theorem findIdx_min {pat : Str} : ∀ {s : Str} {i : Nat},
    findIdx pat s = some i → ∀ j, j < i → ¬ occursAt pat s j := by
  intro s
  induction s with
  | nil =>
    intro i h j hj
    rw [findIdx] at h
    split at h
    · cases h; omega
    · cases h
  | cons c rest ih =>
    intro i h j hj
    rw [findIdx] at h
    split at h
    · cases h; omega
    · cases hf : findIdx pat rest with
      | none => rw [hf] at h; cases h
      | some k =>
        rw [hf] at h
        simp only [Option.map_some', Option.some.injEq] at h
        subst h
        cases j with
        | zero =>
          intro hocc
          obtain ⟨t, ht⟩ := hocc
          exact ‹¬ leadsWith pat (c :: rest) = true› (leadsWith_iff.mpr ⟨t, by simpa using ht⟩)
        | succ j' =>
          intro hocc
          obtain ⟨t, ht⟩ := hocc
          exact ih hf j' (by omega) ⟨t, by simpa [List.drop_succ_cons] using ht⟩

theorem findIdx_isSome_of_occursAt {pat : Str} : ∀ {s : Str} {i : Nat},
    occursAt pat s i → (findIdx pat s).isSome = true := by
  intro s
  induction s with
  | nil =>
    intro i h
    obtain ⟨t, ht⟩ := h
    simp only [List.drop_nil] at ht
    have hp : pat = [] := by
      cases pat with
      | nil => rfl
      | cons x xs => simp at ht
    subst hp
    rw [findIdx]
    simp [leadsWith]
  | cons c rest ih =>
    intro i h
    rw [findIdx]
    split
    · rfl
    · cases i with
      | zero =>
        obtain ⟨t, ht⟩ := h
        simp only [List.drop_zero] at ht
        exact absurd (leadsWith_iff.mpr ⟨t, ht⟩) ‹_›
      | succ i' =>
        obtain ⟨t, ht⟩ := h
        have := ih (i := i') ⟨t, by simpa [List.drop_succ_cons] using ht⟩
        simpa [Option.isSome_map] using this

theorem findIdx_none_not_occurs {pat s : Str} (h : findIdx pat s = none) (i : Nat) :
    ¬ occursAt pat s i := by
  intro hocc
  have := findIdx_isSome_of_occursAt hocc
  rw [h] at this
  cases this

theorem jsSubst_id {m b a : Str} {caps : List Str} :
    ∀ (r : Str), '$' ∉ r → jsSubst m b a caps r = r
  | [], _ => rfl
  | [c], _ => rfl
  | c :: d :: r, h => by
    have hc : ¬ c = '$' := by
      intro e; exact h (by simp [e])
    have hmem : '$' ∉ d :: r := by
      intro e; exact h (List.mem_cons_of_mem _ e)
    rw [jsSubst.eq_def]
    simp only []
    rw [if_pos hc]
    exact congrArg (c :: ·) (jsSubst_id (d :: r) hmem)

theorem takeWhile_append_all {p : Char → Bool} :
    ∀ {t v : Str}, (∀ c ∈ t, p c = true) → (t ++ v).takeWhile p = t ++ v.takeWhile p := by
  intro t
  induction t with
  | nil => intro v _; simp
  | cons c t ih =>
    intro v h
    have hc : p c = true := h c (List.mem_cons_self _ _)
    simp only [List.cons_append, List.takeWhile_cons, hc, if_true]
    exact congrArg (c :: ·) (ih (fun x hx => h x (List.mem_cons_of_mem _ hx)))

theorem headerMatch_eq {content body suffix : Str}
    (h : headerMatch content = some (body, suffix)) :
    content = strOf "---\n" ++ body ++ strOf "\n---" ++ suffix := by
  simp only [headerMatch] at h
  by_cases hl : leadsWith (strOf "---\n") content = true
  · rw [if_pos hl] at h
    obtain ⟨t, rfl⟩ := leadsWith_iff.mp hl
    have hdrop : (strOf "---\n" ++ t).drop 4 = t := by
      have h4 : 4 = (strOf "---\n").length := by decide
      rw [h4, List.drop_left]
    rw [hdrop] at h
    cases hf : findIdx (strOf "\n---") t with
    | none => rw [hf] at h; cases h
    | some k =>
      rw [hf] at h
      simp only [Option.some.injEq, Prod.mk.injEq] at h
      obtain ⟨hb, hs⟩ := h
      subst hb
      subst hs
      obtain ⟨u, hu⟩ := findIdx_occurs hf
      have hu' : t.drop (k + 4) = u := by
        have : t.drop (k + 4) = (t.drop k).drop 4 := by
          rw [List.drop_drop, Nat.add_comm]
        rw [this, hu]
        have h4 : (4 : Nat) = (strOf "\n---").length := by decide
        rw [h4, List.drop_left]
      rw [hu']
      conv_lhs => rw [← List.take_append_drop k t, hu]
      simp [List.append_assoc]
  · rw [if_neg hl] at h; cases h

theorem smod_split : strOf "modified: " = strOf "modified:" ++ [' '] := by decide

theorem dollar_not_mem_append {xs ys : Str} (hx : '$' ∉ xs) (hy : '$' ∉ ys) :
    '$' ∉ xs ++ ys := by
  simp only [List.mem_append]
  rintro (h | h)
  · exact hx h
  · exact hy h

/-- Evaluation of the merge on the append branch: the body has no
occurrence of the substring `"modified:"`, so `"\nmodified: " ++ T` is
appended to it (assuming a `$`-free body and time string, under which the
final string substitution is literal). -/
theorem update_eq_of_append {T content body suffix : Str}
    (hparse : headerMatch content = some (body, suffix))
    (h9 : findIdx (strOf "modified:") body = none)
    (hb : '$' ∉ body) (hT : '$' ∉ T) :
    updateModifiedTime T content =
      some (strOf "---\n" ++ (body ++ strOf "\nmodified: " ++ T) ++ strOf "\n---" ++ suffix) := by
  have hsub : hasSub (strOf "modified:") body = false := by
    rw [hasSub, h9]; rfl
  simp only [updateModifiedTime]
  rw [hparse]
  simp only [hsub, Bool.false_eq_true, if_false]
  have hnm : '$' ∉ strOf "---\n" ++ (body ++ strOf "\nmodified: " ++ T) ++ strOf "\n---" := by
    simp only [List.mem_append, not_or]
    exact ⟨⟨by decide, ⟨hb, by decide⟩, hT⟩, by decide⟩
  rw [jsSubst_id _ hnm]

/-- Evaluation of the single-match replace
`body.replace(/modified: .*/, "modified: " ++ T)` when the first
occurrence of `"modified: "` sits at index `i` and the rest of that line
is `old` (followed by `v`, which is empty or starts at a newline). -/
theorem replaceModifiedLine_eq {body T old v : Str} {i : Nat}
    (h10 : findIdx (strOf "modified: ") body = some i)
    (hdec : body.drop i = strOf "modified: " ++ (old ++ v))
    (hold : ∀ c ∈ old, isLineTerm c = false)
    (hv : v = [] ∨ ∃ w, v = '\n' :: w)
    (hT : '$' ∉ T) :
    replaceModifiedLine body T = body.take i ++ (strOf "modified: " ++ (T ++ v)) := by
  unfold replaceModifiedLine
  rw [h10]
  simp only []
  have hrest : body.drop (i + 10) = old ++ v := by
    have h1 : body.drop (i + 10) = (body.drop i).drop 10 := by
      rw [List.drop_drop, Nat.add_comm]
    rw [h1, hdec]
    have h2 : (10 : Nat) = (strOf "modified: ").length := by decide
    rw [h2, List.drop_left]
  have hline : takeLine (old ++ v) = old := by
    unfold takeLine
    rw [takeWhile_append_all (fun c hc => by simp [hold c hc])]
    rcases hv with rfl | ⟨w, rfl⟩
    · simp
    · simp [isLineTerm]
  rw [hrest, hline, List.drop_left]
  rw [jsSubst_id]
  · simp [List.append_assoc]
  · exact dollar_not_mem_append (by decide) hT

/-- Evaluation of the merge on the replace branch (`$`-free body and time
string). -/
theorem update_eq_of_replace {T content body suffix old v : Str} {i : Nat}
    (hparse : headerMatch content = some (body, suffix))
    (h10 : findIdx (strOf "modified: ") body = some i)
    (hdec : body.drop i = strOf "modified: " ++ (old ++ v))
    (hold : ∀ c ∈ old, isLineTerm c = false)
    (hv : v = [] ∨ ∃ w, v = '\n' :: w)
    (hT : '$' ∉ T) (hb : '$' ∉ body) :
    updateModifiedTime T content =
      some (strOf "---\n" ++ (body.take i ++ (strOf "modified: " ++ (T ++ v))) ++ strOf "\n---" ++ suffix) := by
  have hsub : hasSub (strOf "modified:") body = true := by
    rw [hasSub]
    apply findIdx_isSome_of_occursAt (i := i)
    refine ⟨' ' :: (old ++ v), ?_⟩
    rw [hdec, smod_split]
    simp
  simp only [updateModifiedTime]
  rw [hparse]
  simp only [hsub, if_true]
  rw [replaceModifiedLine_eq h10 hdec hold hv hT]
  have h1 : '$' ∉ body.take i := fun hm => hb (List.take_subset _ _ hm)
  have h2 : '$' ∉ v := by
    intro hm
    exact hb (List.drop_subset i body (by rw [hdec]; simp [hm]))
  have hnm : '$' ∉ strOf "---\n" ++ (body.take i ++ (strOf "modified: " ++ (T ++ v))) ++ strOf "\n---" := by
    simp only [List.mem_append, not_or]
    exact ⟨⟨by decide, h1, by decide, hT, h2⟩, by decide⟩
  rw [jsSubst_id _ hnm]

/-! ## Claim theorems for the header-merge engine -/

/-- JS `content.split("\n")`: the lines of the content. -/
def splitNl : Str → List Str
  | [] => [[]]
  | c :: t =>
    if c = '\n' then [] :: splitNl t
    else
      match splitNl t with
      | h :: r => (c :: h) :: r
      | [] => [[c]]

/-- The condition under which the code's header regex matches: the content
begins with the opening marker `"---\n"`, and the four-character delimiter
`"\n---"` occurs somewhere after it.  This closing-delimiter test is a
**substring** test, weaker than the spec's "closing marker line consisting
solely of three hyphens": a longer line such as `---tail` also satisfies
it (see `C9_counterexample`). -/
def hasHeaderDelims (content : Str) : Prop :=
  (∃ t, content = strOf "---\n" ++ t) ∧ ∃ i, occursAt (strOf "\n---") (content.drop 4) i

/-- C9 counterexample: in `"---\nkey: v\n---tail"` no line after the
opening one consists solely of three hyphens, so the content has no
closing marker line and per the claim the merge should return it
unchanged with no write; but the code's regex accepts the substring
`"\n---"` inside the line `---tail` as the closing delimiter, and the
merge rewrites the document. -/
theorem C9_counterexample :
    updateModifiedTime (strOf "9") (strOf "---\nkey: v\n---tail") =
      some (strOf "---\nkey: v\nmodified: 9\n---tail") ∧
    some (strOf "---\nkey: v\nmodified: 9\n---tail") ≠ none ∧
    ∀ l ∈ (splitNl (strOf "---\nkey: v\n---tail")).drop 1, l ≠ strOf "---" := by
  refine ⟨by decide, by decide, by decide⟩

/-- C9 (amended): content that does not begin with the opening marker
`"---\n"` followed later by an occurrence of the four-character delimiter
`"\n---"` is left unchanged: `updateModifiedTime` returns `none`, meaning
the function returns without performing any write — a no-op, not an
error.  (The code's closing-delimiter test is the substring `"\n---"`,
not a closing marker line: content such as `"---\nkey: v\n---tail"`,
which has no closing marker line, is still rewritten.) -/
theorem C9_no_header_no_op (T content : Str) (h : ¬ hasHeaderDelims content) :
    updateModifiedTime T content = none := by
  have hm : headerMatch content = none := by
    simp only [headerMatch]
    by_cases hl : leadsWith (strOf "---\n") content = true
    · rw [if_pos hl]
      cases hf : findIdx (strOf "\n---") (content.drop 4) with
      | none => rfl
      | some k =>
        exact absurd ⟨leadsWith_iff.mp hl, k, findIdx_occurs hf⟩ h
    · rw [if_neg hl]
  rw [updateModifiedTime, hm]

/-- Witness for C9 at concrete input: plain text with no marker lines. -/
theorem C9_no_header_no_op_witness :
    updateModifiedTime (strOf "9") (strOf "hello world") = none :=
  C9_no_header_no_op (strOf "9") (strOf "hello world")
    (fun hc => absurd (leadsWith_iff.mpr hc.1) (by decide))

/-- C1 counterexample: the content's header body contains the line
`modified: 9` and the merged pair is `{modified: 9}`, yet the output is
not byte-identical to the input — the replace targets the earlier
substring occurrence of `"modified: "` inside the unrelated key line
`last-modified: x` and rewrites that line instead. -/
theorem C1_counterexample :
    updateModifiedTime (strOf "9") (strOf "---\nlast-modified: x\nmodified: 9\n---\n") =
      some (strOf "---\nlast-modified: 9\nmodified: 9\n---\n") ∧
    strOf "---\nlast-modified: 9\nmodified: 9\n---\n" ≠
      strOf "---\nlast-modified: x\nmodified: 9\n---\n" := by
  constructor
  · decide
  · decide

/-- C1 (amended): the merge of `{modified: T}` is idempotent for a fixed
timestamp value provided the first occurrence of `"modified: "` in the
header body is the genuine `modified: T` line (index `i`, also the first
occurrence of the substring `"modified:"`), `T` contains no line
terminator, and neither the body nor `T` contains a `$` character (which
the final string substitution would expand).  Under these conditions one
application returns the input itself, so applying the merge twice equals
applying it once. -/
theorem C1_idempotent_merge {T content body suffix v : Str} {i : Nat}
    (hparse : headerMatch content = some (body, suffix))
    (h9 : findIdx (strOf "modified:") body = some i)
    (h10 : findIdx (strOf "modified: ") body = some i)
    (hdec : body.drop i = strOf "modified: " ++ (T ++ v))
    (hT : ∀ c ∈ T, isLineTerm c = false)
    (hv : v = [] ∨ ∃ w, v = '\n' :: w)
    (hTd : '$' ∉ T) (hb : '$' ∉ body) :
    updateModifiedTime T content = some content := by
  rw [update_eq_of_replace hparse h10 hdec hT hv hTd hb]
  rw [headerMatch_eq hparse]
  have hbody : body.take i ++ (strOf "modified: " ++ (T ++ v)) = body := by
    conv_rhs => rw [← List.take_append_drop i body, hdec]
  rw [hbody]

/-- Witness for C1 at a concrete input whose body's first `"modified: "`
occurrence is the genuine `modified: 9` line. -/
theorem C1_idempotent_merge_witness :
    updateModifiedTime (strOf "9") (strOf "---\na: 1\nmodified: 9\n---\nrest") =
      some (strOf "---\na: 1\nmodified: 9\n---\nrest") :=
  @C1_idempotent_merge (strOf "9") (strOf "---\na: 1\nmodified: 9\n---\nrest")
    (strOf "a: 1\nmodified: 9") (strOf "\nrest") [] 5
    (by decide) (by decide) (by decide) (by decide) (by decide)
    (Or.inl rfl) (by decide) (by decide)

/-- C3 counterexample: the header body `last-modified: x` contains no line
matching `^modified: .*$`, so per the claim a new line `modified: 9`
should be appended at the end of the body; instead the code takes the
replace branch (the body `includes("modified:")` as a substring of the
`last-modified` key), rewrites the unrelated `last-modified` line in
place, and appends nothing. -/
theorem C3_counterexample :
    updateModifiedTime (strOf "9") (strOf "---\nlast-modified: x\n---\n") =
      some (strOf "---\nlast-modified: 9\n---\n") ∧
    strOf "---\nlast-modified: 9\n---\n" ≠
      strOf "---\nlast-modified: x\nmodified: 9\n---\n" := by
  constructor
  · decide
  · decide

/-- C3 (amended): characterization of the two merge branches on `$`-free
inputs.  (a) If the body contains no occurrence of the substring
`"modified:"` at all, a new line `modified: T` is appended at the end of
the body.  (b) If the first occurrence of the substring `"modified:"` in
the body coincides with the first occurrence of `"modified: "` (index
`i`) — i.e. the first occurrence starts a well-formed `modified: ` field —
then exactly the value of that single occurrence is replaced in place
(the text from `i` to the end of that line becomes `modified: T`), and
nothing is appended.  The original claim's stronger statements — that
lines whose key is not exactly `modified` are never targeted, and that
absence of a `^modified: .*$` line always causes an append — fail
(`C3_counterexample`). -/
theorem C3_merge_branches {T content body suffix : Str}
    (hparse : headerMatch content = some (body, suffix))
    (hb : '$' ∉ body) (hT : '$' ∉ T) :
    (findIdx (strOf "modified:") body = none →
      updateModifiedTime T content =
        some (strOf "---\n" ++ (body ++ strOf "\nmodified: " ++ T) ++ strOf "\n---" ++ suffix)) ∧
    (∀ i old v, findIdx (strOf "modified:") body = some i →
      findIdx (strOf "modified: ") body = some i →
      body.drop i = strOf "modified: " ++ (old ++ v) →
      (∀ c ∈ old, isLineTerm c = false) →
      (v = [] ∨ ∃ w, v = '\n' :: w) →
      updateModifiedTime T content =
        some (strOf "---\n" ++ (body.take i ++ (strOf "modified: " ++ (T ++ v))) ++ strOf "\n---" ++ suffix)) := by
  constructor
  · intro h9
    exact update_eq_of_append hparse h9 hb hT
  · intro i old v h9 h10 hdec hold hv
    exact update_eq_of_replace hparse h10 hdec hold hv hT hb

/-- Witness for C3 exercising both branches at concrete inputs. -/
theorem C3_merge_branches_witness :
    updateModifiedTime (strOf "9") (strOf "---\na: 1\n---\nrest") =
      some (strOf "---\na: 1\nmodified: 9\n---\nrest") ∧
    updateModifiedTime (strOf "9") (strOf "---\nmodified: 2\nb: 4\n---\nrest") =
      some (strOf "---\nmodified: 9\nb: 4\n---\nrest") := by
  constructor
  · have h := (@C3_merge_branches (strOf "9") (strOf "---\na: 1\n---\nrest")
      (strOf "a: 1") (strOf "\nrest")
      (by decide) (by decide) (by decide)).1 (by decide)
    exact h.trans (by decide)
  · have h := (@C3_merge_branches (strOf "9") (strOf "---\nmodified: 2\nb: 4\n---\nrest")
      (strOf "modified: 2\nb: 4") (strOf "\nrest")
      (by decide) (by decide) (by decide)).2 0 (strOf "2") (strOf "\nb: 4")
      (by decide) (by decide) (by decide) (by decide) (Or.inr ⟨strOf "b: 4", by decide⟩)
    exact h.trans (by decide)

/-- C4 counterexample: the header holds the key lines `a: 1` and
`last-modified: x`, both with keys different from `modified`; merging
`{modified: 9}` should leave both unchanged, but the `last-modified` line
is rewritten to `last-modified: 9`. -/
theorem C4_counterexample :
    updateModifiedTime (strOf "9") (strOf "---\na: 1\nlast-modified: x\n---\nZ") =
      some (strOf "---\na: 1\nlast-modified: 9\n---\nZ") ∧
    strOf "---\na: 1\nlast-modified: 9\n---\nZ" ≠
      strOf "---\na: 1\nlast-modified: x\n---\nZ" := by
  constructor
  · decide
  · decide

/-- C4 (amended): frame property of the merge on `$`-free inputs, provided
no key line other than the `modified: ` field itself contains the
substring `"modified:"`.  (a) Updated key: if the body is
`u ++ "modified: " ++ old ++ v` with the `"modified: "` at `u.length`
being its first occurrence, the output is
`"---\n" ++ u ++ "modified: " ++ T ++ v ++ "\n---" ++ suffix`: the bytes
`u` before the field, the bytes `v` after its line, and the content
`suffix` outside the header block are reproduced byte-for-byte in their
original order.  (b) New key: if the body has no occurrence of
`"modified:"`, the entire body is reproduced byte-for-byte and the new
line is appended at its end, with `suffix` untouched. -/
theorem C4_frame {T content u old v suffix : Str}
    (hparse : headerMatch content = some (u ++ (strOf "modified: " ++ (old ++ v)), suffix))
    (h10 : findIdx (strOf "modified: ") (u ++ (strOf "modified: " ++ (old ++ v))) = some u.length)
    (hold : ∀ c ∈ old, isLineTerm c = false)
    (hv : v = [] ∨ ∃ w, v = '\n' :: w)
    (hu : '$' ∉ u) (hvd : '$' ∉ v) (holdd : '$' ∉ old) (hT : '$' ∉ T) :
    updateModifiedTime T content =
      some (strOf "---\n" ++ (u ++ (strOf "modified: " ++ (T ++ v))) ++ strOf "\n---" ++ suffix) ∧
    (∀ content2 body2 suffix2, headerMatch content2 = some (body2, suffix2) →
      '$' ∉ body2 → findIdx (strOf "modified:") body2 = none →
      updateModifiedTime T content2 =
        some (strOf "---\n" ++ (body2 ++ strOf "\nmodified: " ++ T) ++ strOf "\n---" ++ suffix2)) := by
  constructor
  · have hb : '$' ∉ u ++ (strOf "modified: " ++ (old ++ v)) :=
      dollar_not_mem_append hu
        (dollar_not_mem_append (by decide) (dollar_not_mem_append holdd hvd))
    have hdec : (u ++ (strOf "modified: " ++ (old ++ v))).drop u.length =
        strOf "modified: " ++ (old ++ v) := List.drop_left u _
    have htake : (u ++ (strOf "modified: " ++ (old ++ v))).take u.length = u := List.take_left u _
    have h := update_eq_of_replace hparse h10 hdec hold hv hT hb
    rw [htake] at h
    exact h
  · intro content2 body2 suffix2 hparse2 hb2 h9
    exact update_eq_of_append hparse2 h9 hb2 hT

/-- Witness for C4 at a concrete input: `a: 1` before and `b: 2` after the
`modified` field are preserved, as is the content after the header. -/
theorem C4_frame_witness :
    updateModifiedTime (strOf "9") (strOf "---\na: 1\nmodified: 2\nb: 2\n---\nZ") =
      some (strOf "---\na: 1\nmodified: 9\nb: 2\n---\nZ") := by
  have h := (@C4_frame (strOf "9")
    (strOf "---\na: 1\nmodified: 2\nb: 2\n---\nZ")
    (strOf "a: 1\n") (strOf "2")
    (strOf "\nb: 2") (strOf "\nZ")
    (by decide) (by decide) (by decide) (Or.inr ⟨strOf "b: 2", by decide⟩)
    (by decide) (by decide) (by decide) (by decide)).1
  exact h.trans (by decide)

/-! ## Claim theorems for exclusion, new-file detection, creation stamping -/

/-- C5: a path is excluded iff some prefix of its slash-separated path,
re-joined from the root, exactly equals a configured excluded path;
substring matches inside a segment do not count
(`"projects/drafts/note.md"` is excluded by `"projects/drafts"` but not by
`"drafts"`), and the empty excluded-folder list excludes nothing. -/
theorem C5_exclusion :
    (∀ (ex : List Str) (p : Str), isPathExcluded ex p = true ↔ specExcluded ex p) ∧
    isPathExcluded [strOf "projects/drafts"] (strOf "projects/drafts/note.md") = true ∧
    isPathExcluded [strOf "drafts"] (strOf "projects/drafts/note.md") = false ∧
    (∀ p : Str, isPathExcluded [] p = false) := by
  refine ⟨?_, by decide, by decide, fun p => rfl⟩
  intro ex p
  unfold isPathExcluded specExcluded
  by_cases hex : ex.length = 0
  · rw [if_pos hex]
    have hnil : ex = [] := List.length_eq_zero.mp hex
    subst hnil
    simp
  · rw [if_neg hex]
    simp only [List.any_eq_true, beq_iff_eq, fullPathChecks, List.mem_map, List.mem_range]
    constructor
    · rintro ⟨e, he, q, ⟨i, hi, rfl⟩, rfl⟩
      exact ⟨i + 1, by omega, by omega, he⟩
    · rintro ⟨k, hk1, hk2, hmem⟩
      refine ⟨joinSlash ((splitSlash p).take k), hmem, ?_⟩
      exact ⟨joinSlash ((splitSlash p).take k), ⟨k - 1, by omega, by rw [Nat.sub_add_cancel hk1]⟩, rfl⟩

/-- C8 counterexample: a document whose modification time is 500 ms after
its creation time is classified as new by the code (the truncated
second-difference is 0 ≤ 0.3), although its gap of 0.5 s exceeds the
claimed 0.3-second bound. -/
theorem C8_counterexample :
    isFileNew 0 500 = true ∧ ¬ ((500 : Int) - 0 ≤ 300) := by
  constructor
  · decide
  · decide

/-- C8 (amended): the code classifies a document as new iff the truncated
whole-second difference `trunc((mtime − ctime) / 1000)` is at most 0 —
for `mtime ≥ ctime`, iff the gap is under 1000 ms — not iff the gap is at
most 0.3 s.  The claim's concrete cases hold: a 0.2 s gap is new, a 1.0 s
gap is not. -/
theorem C8_new_file_boundary (ctime mtime : Int) :
    (isFileNew ctime mtime = true ↔ momentDiffSeconds ctime mtime ≤ 0) ∧
    (0 ≤ mtime - ctime → (isFileNew ctime mtime = true ↔ mtime - ctime < 1000)) ∧
    isFileNew 0 200 = true ∧ isFileNew 0 1000 = false := by
  refine ⟨?_, ?_, by decide, by decide⟩
  · unfold isFileNew
    simp only [decide_eq_true_eq]
    omega
  · intro h
    unfold isFileNew momentDiffSeconds
    rw [Int.tdiv_eq_ediv h (by norm_num)]
    simp only [decide_eq_true_eq]
    omega

/-- Witness for C8: a 700 ms gap (nonnegative) is classified as new,
matching the under-one-second characterization. -/
theorem C8_new_file_boundary_witness :
    (0 : Int) ≤ 700 - 0 ∧ (isFileNew 0 700 = true ↔ (700 : Int) - 0 < 1000) :=
  ⟨by decide, (C8_new_file_boundary 0 700).2.1 (by decide)⟩

theorem fmGet_fmSet_self (fm : FM) (k v : Str) : fmGet (fmSet fm k v) k = some v := by
  induction fm with
  | nil => simp [fmSet, fmGet]
  | cons kv rest ih =>
    simp only [fmSet]
    by_cases h : kv.1 = k
    · simp [h, fmGet]
    · simp [h, fmGet, ih]

theorem fmGet_fmSet_ne (fm : FM) {k q : Str} (v : Str) (h : q ≠ k) :
    fmGet (fmSet fm k v) q = fmGet fm q := by
  induction fm with
  | nil => simp [fmSet, fmGet, Ne.symm h]
  | cons kv rest ih =>
    simp only [fmSet]
    by_cases hk : kv.1 = k
    · subst hk
      simp [fmGet, Ne.symm h]
    · by_cases hq : kv.1 = q
      · simp [hk, fmGet, hq, h]
      · simp [hk, fmGet, hq, ih, h]

/-- C7 counterexample: the front matter already has `created: old`; per
the claim the creation stamp sets `created` only if absent, but the code
(third design generation) overwrites it with the new time. -/
theorem C7_counterexample :
    handleFileCreate defaultSettings true ⟨strOf "n.md", strOf "md", 0, 0, 0⟩ (strOf "T")
        [(strOf "created", strOf "old")] =
      some [(strOf "created", strOf "T"), (strOf "modified", strOf "T")] ∧
    strOf "T" ≠ strOf "old" := by
  constructor
  · decide
  · decide

/-- C7 (amended): for a markdown file, the creation stamp records the
current time, waits the configured delay, and then mutates the front
matter only if the file still exists when the delay ends — if it was
deleted during the wait, the attempt degrades to a no-op (`none`).  The
mutation sets both the configured created property and the configured
modified property to the recorded time **unconditionally** (an existing
created value is overwritten, contrary to the original claim), and leaves
every other key unchanged. -/
theorem C7_creation_stamp (s : Settings) (file : FileInfo) (t : Str) (fm : FM)
    (hext : file.ext = strOf "md") :
    handleFileCreate s false file t fm = none ∧
    handleFileCreate s true file t fm =
      some (createMut s.createdPropertyName s.modifiedPropertyName t fm) ∧
    fmGet (createMut s.createdPropertyName s.modifiedPropertyName t fm) s.modifiedPropertyName = some t ∧
    fmGet (createMut s.createdPropertyName s.modifiedPropertyName t fm) s.createdPropertyName = some t ∧
    (∀ k, k ≠ s.createdPropertyName → k ≠ s.modifiedPropertyName →
      fmGet (createMut s.createdPropertyName s.modifiedPropertyName t fm) k = fmGet fm k) := by
  refine ⟨by simp [handleFileCreate, hext], by simp [handleFileCreate, hext], ?_, ?_, ?_⟩
  · exact fmGet_fmSet_self _ _ _
  · by_cases hcm : s.createdPropertyName = s.modifiedPropertyName
    · rw [createMut, hcm, fmGet_fmSet_self]
    · rw [createMut, fmGet_fmSet_ne _ _ hcm, fmGet_fmSet_self]
  · intro k hkc hkm
    rw [createMut, fmGet_fmSet_ne _ _ hkm, fmGet_fmSet_ne _ _ hkc]

/-- Witness for C7 at a concrete markdown file and empty front matter. -/
theorem C7_creation_stamp_witness :
    handleFileCreate defaultSettings false ⟨strOf "n.md", strOf "md", 0, 0, 0⟩ (strOf "T") [] = none ∧
    handleFileCreate defaultSettings true ⟨strOf "n.md", strOf "md", 0, 0, 0⟩ (strOf "T") [] =
      some (createMut (strOf "created") (strOf "modified") (strOf "T") []) := by
  have h := C7_creation_stamp defaultSettings ⟨strOf "n.md", strOf "md", 0, 0, 0⟩ (strOf "T") []
    (by decide)
  exact ⟨h.1, h.2.1⟩

/-! ## Claim theorems for the session tracker -/

/-- C2 counterexample: the tracker holds a document in the excluded folder
`ex` with fingerprint `OLD`; its content has changed (current fingerprint
`new` ≠ `OLD`) and a close event arrives (no file active), yet the handler
emits no `updateModifiedTime` invocation at all — the claim demands
exactly one. -/
theorem C2_counterexample :
    (handleFileChange { defaultSettings with excludedFolders := [strOf "ex"] }
        ⟨fun _ => true, fun _ => strOf "new", fun c => c⟩ none
        ⟨some ⟨strOf "ex/a.md", strOf "md", 0, 0, 0⟩, some (strOf "OLD")⟩).2 = [] ∧
    calculateChecksum ⟨fun _ => true, fun _ => strOf "new", fun c => c⟩ (strOf "ex/a.md") ≠
      strOf "OLD" := by
  constructor
  · decide
  · decide

/-- C2 (amended): dirtiness detection for a tracked document `f` with
recorded fingerprint `F`, with the exclusion and existence side conditions
the code imposes.  (a) Close event, content changed: if `f.path` is not
excluded, the file still exists, and the current fingerprint differs from
`F`, exactly one stamp call on `f` is emitted.  (b) Close event, no
content change: zero stamp calls, unconditionally.  (c) Switch to a
different document `g`, content changed: if `g.path` is not excluded
(otherwise the handler returns before the stale check), the previous file
exists and its fingerprint differs from `F`, exactly one stamp call on `f`
is emitted.  (d) Switch with no content change: zero stamp calls on `f`,
unconditionally. -/
theorem countP_stamp_create (p q : Str) (C : Prop) [Decidable C] :
    List.countP (fun a => a == Act.stamp p) (if C then [Act.create q] else []) = 0 := by
  split <;> simp

theorem C2_dirtiness (s : Settings) (env : Env) (f : FileInfo) (F : Str) :
    (isPathExcluded s.excludedFolders f.path = false →
      env.fsExists f.path = true →
      calculateChecksum env f.path ≠ F →
      stampsOn f.path (handleFileChange s env none ⟨some f, some F⟩).2 = 1) ∧
    (calculateChecksum env f.path = F →
      stampsOn f.path (handleFileChange s env none ⟨some f, some F⟩).2 = 0) ∧
    (∀ g : FileInfo, g.path ≠ f.path →
      isPathExcluded s.excludedFolders g.path = false →
      env.fsExists f.path = true →
      calculateChecksum env f.path ≠ F →
      stampsOn f.path (handleFileChange s env (some g) ⟨some f, some F⟩).2 = 1) ∧
    (∀ g : FileInfo, calculateChecksum env f.path = F →
      stampsOn f.path (handleFileChange s env (some g) ⟨some f, some F⟩).2 = 0) := by
  have hc0 : ∀ q C, ∀ _ : Decidable C,
      List.countP (fun a => a == Act.stamp f.path) (if C then [Act.create q] else []) = 0 :=
    fun q C dc => @countP_stamp_create f.path q C dc
  refine ⟨?_, ?_, ?_, ?_⟩
  · intro hexc hfs hne
    have hne2 : ¬ F = calculateChecksum env f.path := fun hh => hne hh.symm
    simp [handleFileChange, hexc, hfs, stampsOn, hne2]
  · intro heq
    simp [handleFileChange, heq, stampsOn]
  · intro g hgf hexc hfs hne
    have hne2 : ¬ F = calculateChecksum env f.path := fun hh => hne hh.symm
    have hfg : ¬ f.path = g.path := fun hh => hgf hh.symm
    simp [handleFileChange, hexc, hfs, hne2, hfg, stampsOn, List.countP_append, hc0]
  · intro g heq
    by_cases hexc : isPathExcluded s.excludedFolders g.path = true
    · simp [handleFileChange, hexc, stampsOn]
    · simp only [Bool.not_eq_true] at hexc
      by_cases hgf : f.path = g.path
      · simp only [handleFileChange, hexc, Bool.false_eq_true, if_false, hgf,
          stampsOn, List.countP_append]
        simp [hc0 g.path]
        intro a _ _ _ ha
        subst ha
        simp
      · simp [handleFileChange, hexc, heq, stampsOn, List.countP_append, hc0,
          fun hh => hgf (Eq.symm hh)]

/-- Witness for C2: with no exclusions, an existing tracked file and a
changed fingerprint, a close event emits exactly one stamp; with an
unchanged fingerprint, it emits zero. -/
theorem C2_dirtiness_witness :
    stampsOn (strOf "a.md")
      (handleFileChange defaultSettings ⟨fun _ => true, fun _ => strOf "new", fun c => c⟩ none
        ⟨some ⟨strOf "a.md", strOf "md", 0, 0, 0⟩, some (strOf "OLD")⟩).2 = 1 ∧
    stampsOn (strOf "a.md")
      (handleFileChange defaultSettings ⟨fun _ => true, fun _ => strOf "new", fun c => c⟩ none
        ⟨some ⟨strOf "a.md", strOf "md", 0, 0, 0⟩, some (strOf "new")⟩).2 = 0 :=
  ⟨(C2_dirtiness defaultSettings ⟨fun _ => true, fun _ => strOf "new", fun c => c⟩
      ⟨strOf "a.md", strOf "md", 0, 0, 0⟩ (strOf "OLD")).1 (by decide) (by decide) (by decide),
   (C2_dirtiness defaultSettings ⟨fun _ => true, fun _ => strOf "new", fun c => c⟩
      ⟨strOf "a.md", strOf "md", 0, 0, 0⟩ (strOf "new")).2.1 (by decide)⟩

/-- C6 counterexample: the tracker holds the non-excluded document `a.md`
with fingerprint `OLD` whose content has changed; a switch to `ex/b.md`
(a different path, in an excluded folder) arrives.  The claim demands the
stale-check-and-stamp for `a.md` (its excluded-folder check passes) and a
transition to tracking `ex/b.md`; the code instead returns immediately:
no action is emitted and the tracker still holds `a.md` with `OLD`. -/
theorem C6_counterexample :
    handleFileChange { defaultSettings with excludedFolders := [strOf "ex"] }
        ⟨fun _ => true, fun _ => strOf "new", fun c => c⟩
        (some ⟨strOf "ex/b.md", strOf "md", 0, 0, 0⟩)
        ⟨some ⟨strOf "a.md", strOf "md", 0, 0, 0⟩, some (strOf "OLD")⟩ =
      (⟨some ⟨strOf "a.md", strOf "md", 0, 0, 0⟩, some (strOf "OLD")⟩, []) ∧
    isPathExcluded [strOf "ex"] (strOf "a.md") = false ∧
    calculateChecksum ⟨fun _ => true, fun _ => strOf "new", fun c => c⟩ (strOf "a.md") ≠
      strOf "OLD" ∧
    strOf "ex/b.md" ≠ strOf "a.md" := by
  refine ⟨by decide, by decide, by decide, by decide⟩

/-- C6 (amended): activation of a document `g` while `f` is tracked with
fingerprint `F`.  (a) If `g.path` differs from `f.path` **and `g.path` is
not excluded** (the code returns before the stale check when the newly
active path is excluded), the tracker transitions to
`TRACKING(g, fingerprint(g's content))`, and a stamp call on `f` is
emitted exactly when `f` still exists and its current fingerprint differs
from `F`.  (b) If `g.path` equals the tracked path, the tracker state is
unchanged — no transition and no refingerprinting — and no stamp call on
`f` is emitted. -/
theorem C6_activation (s : Settings) (env : Env) (f g : FileInfo) (F : Str) :
    (g.path ≠ f.path → isPathExcluded s.excludedFolders g.path = false →
      (handleFileChange s env (some g) ⟨some f, some F⟩).1 =
        ⟨some g, some (calculateChecksum env g.path)⟩ ∧
      (stampsOn f.path (handleFileChange s env (some g) ⟨some f, some F⟩).2 = 1 ↔
        (env.fsExists f.path = true ∧ calculateChecksum env f.path ≠ F))) ∧
    (g.path = f.path →
      (handleFileChange s env (some g) ⟨some f, some F⟩).1 = ⟨some f, some F⟩ ∧
      stampsOn f.path (handleFileChange s env (some g) ⟨some f, some F⟩).2 = 0) := by
  have hc0 : ∀ q C, ∀ _ : Decidable C,
      List.countP (fun a => a == Act.stamp f.path) (if C then [Act.create q] else []) = 0 :=
    fun q C dc => @countP_stamp_create f.path q C dc
  constructor
  · intro hgf hexc
    have hfg : ¬ f.path = g.path := fun hh => hgf hh.symm
    constructor
    · simp [handleFileChange, hexc, hfg]
    · by_cases hfs : env.fsExists f.path = true
      · by_cases hne : calculateChecksum env f.path = F
        · simp [handleFileChange, hexc, hfs, hne, hfg, stampsOn,
            List.countP_append, hc0]
        · have hfe : ¬ F = calculateChecksum env f.path := fun hh => hne hh.symm
          simp [handleFileChange, hexc, hfs, hne, hfe, hfg, stampsOn,
            List.countP_append, hc0]
      · simp only [Bool.not_eq_true] at hfs
        simp [handleFileChange, hexc, hfs, hfg, stampsOn, List.countP_append, hc0]
  · intro hgf
    by_cases hexc : isPathExcluded s.excludedFolders g.path = true
    · simp [handleFileChange, hexc, stampsOn]
    · simp only [Bool.not_eq_true] at hexc
      simp [handleFileChange, hexc, hgf.symm, stampsOn, List.countP_append, hc0]
      intro a _ _ _ ha
      subst ha
      simp

/-- Witness for C6: switching from a changed `a.md` to `b.md` (neither
excluded) stamps `a.md` once and re-tracks `b.md`; re-activating the
already-tracked path leaves the state untouched. -/
theorem C6_activation_witness :
    (handleFileChange defaultSettings ⟨fun _ => true, fun _ => strOf "new", fun c => c⟩
        (some ⟨strOf "b.md", strOf "md", 0, 0, 0⟩)
        ⟨some ⟨strOf "a.md", strOf "md", 0, 0, 0⟩, some (strOf "OLD")⟩).1 =
      ⟨some ⟨strOf "b.md", strOf "md", 0, 0, 0⟩, some (strOf "new")⟩ ∧
    (handleFileChange defaultSettings ⟨fun _ => true, fun _ => strOf "new", fun c => c⟩
        (some ⟨strOf "a.md", strOf "md", 5, 5, 5⟩)
        ⟨some ⟨strOf "a.md", strOf "md", 0, 0, 0⟩, some (strOf "OLD")⟩).1 =
      ⟨some ⟨strOf "a.md", strOf "md", 0, 0, 0⟩, some (strOf "OLD")⟩ := by
  constructor
  · exact ((C6_activation defaultSettings ⟨fun _ => true, fun _ => strOf "new", fun c => c⟩
      ⟨strOf "a.md", strOf "md", 0, 0, 0⟩ ⟨strOf "b.md", strOf "md", 0, 0, 0⟩
      (strOf "OLD")).1 (by decide) (by decide)).1
  · exact ((C6_activation defaultSettings ⟨fun _ => true, fun _ => strOf "new", fun c => c⟩
      ⟨strOf "a.md", strOf "md", 0, 0, 0⟩ ⟨strOf "a.md", strOf "md", 5, 5, 5⟩
      (strOf "OLD")).2 (by decide)).1

/-- The tracker-slot invariant: `lastActiveFile` is null iff `lastChecksum`
is null (the state is `EMPTY` or a full `TRACKING` pair). -/
def goodTracker (st : TrackerState) : Prop :=
  st.lastActiveFile = none ↔ st.lastChecksum = none

theorem handleFileChange_good (s : Settings) (env : Env) (e : Option FileInfo)
    (st : TrackerState) (h : goodTracker st) :
    goodTracker (handleFileChange s env e st).1 := by
  cases e with
  | none => simp [handleFileChange, goodTracker]
  | some cur =>
    by_cases hexc : isPathExcluded s.excludedFolders cur.path = true
    · simpa [handleFileChange, hexc] using h
    · simp only [Bool.not_eq_true] at hexc
      cases hst : st.lastActiveFile with
      | none => simp [handleFileChange, hexc, hst, goodTracker]
      | some last =>
        by_cases hp : last.path = cur.path
        · have : (handleFileChange s env (some cur) st).1 = st := by
            simp [handleFileChange, hexc, hst, hp]
          rw [this]
          exact h
        · simp [handleFileChange, hexc, hst, hp, goodTracker]

theorem handleFileChangeV2_good (env : Env) (e : Option FileInfo) (st : TrackerState)
    (h : ∀ f : FileInfo, e = some f → f.path ≠ []) :
    goodTracker (handleFileChangeV2 env e st).1 := by
  cases e with
  | none => simp [handleFileChangeV2, goodTracker]
  | some cur =>
    have hp : cur.path ≠ [] := h cur rfl
    simp [handleFileChangeV2, goodTracker, hp]

theorem runHandler_good (s : Settings) (env : Env) :
    ∀ (evs : List (Option FileInfo)) (st : TrackerState), goodTracker st →
      goodTracker (runHandler s env st evs)
  | [], st, h => h
  | e :: evs, st, h =>
    runHandler_good s env evs _ (handleFileChange_good s env e st h)

theorem runHandlerV2_good (env : Env) :
    ∀ (evs : List (Option FileInfo)) (st : TrackerState),
      (∀ f : FileInfo, some f ∈ evs → f.path ≠ []) → goodTracker st →
      goodTracker (runHandlerV2 env st evs)
  | [], st, _, h => h
  | e :: evs, st, hev, h =>
    runHandlerV2_good env evs _
      (fun f hf => hev f (List.mem_cons_of_mem _ hf))
      (handleFileChangeV2_good env e st (fun f hf => hev f (hf ▸ List.mem_cons_self _ _)))

/-- C10: starting from the initial state (both fields null), after every
completed handler invocation the tracker slot satisfies
`lastActiveFile = null ↔ lastChecksum = null` — every reachable state is
`EMPTY` or a full `TRACKING` pair.  For the second-generation handler the
same holds provided every observed file has a nonempty path (always true
of the host's file objects; with an empty path that handler would record a
file with a null checksum). -/
theorem C10_invariant :
    (∀ (s : Settings) (env : Env) (evs : List (Option FileInfo)),
      goodTracker (runHandler s env ⟨none, none⟩ evs)) ∧
    (∀ (env : Env) (evs : List (Option FileInfo)),
      (∀ f : FileInfo, some f ∈ evs → f.path ≠ []) →
      goodTracker (runHandlerV2 env ⟨none, none⟩ evs)) := by
  constructor
  · intro s env evs
    exact runHandler_good s env evs _ (by simp [goodTracker])
  · intro env evs hev
    exact runHandlerV2_good env evs _ hev (by simp [goodTracker])

/-- Witness for C10 on concrete event lists. -/
theorem C10_invariant_witness :
    goodTracker (runHandler defaultSettings ⟨fun _ => true, fun _ => [], fun c => c⟩
      ⟨none, none⟩ [some ⟨strOf "a.md", strOf "md", 0, 0, 0⟩, none]) ∧
    goodTracker (runHandlerV2 ⟨fun _ => true, fun _ => [], fun c => c⟩
      ⟨none, none⟩ [some ⟨strOf "a.md", strOf "md", 0, 0, 0⟩]) :=
  ⟨C10_invariant.1 _ _ _,
   C10_invariant.2 _ _ (by
    intro f hf
    simp only [List.mem_singleton, Option.some.injEq] at hf
    subst hf
    decide)⟩
